import Mathlib

/-!
Verification model of the shawl command-line layer (src/cli.rs) and of the
restart-decision function described in the design document.  Rust strings are
modelled as lists of characters; u64 and usize become Nat with explicit bounds
where overflow matters; i32 exit codes become Int; fallible Rust functions
return Except.
-/

namespace Shawl

/-! ## Restart policy decision (design document, section 4.3) -/

/-- Modelled from the spec: the RestartPolicy tagged variant of section 3; the
supervision engine that defines it is not under src/. -/
inductive RestartPolicy where
  | Always : RestartPolicy
  | Never : RestartPolicy
  | IfCodeIn : List Int → RestartPolicy
  | IfCodeNotIn : List Int → RestartPolicy
  | Default : RestartPolicy
deriving DecidableEq

/-- Outcome of the restart decision. -/
inductive Decision where
  | Restart : Decision
  | StopSuccess : Decision
  | Stop : Decision
deriving DecidableEq

/-- Modelled from the spec: the pure decision function of section 4.3 (the
supervision engine is not under src/); pass-code membership is checked first,
then the policy variant. -/
def decide (exitCode : Int) (policy : RestartPolicy) (passCodes : List Int) : Decision :=
  if exitCode ∈ passCodes then Decision.StopSuccess
  else
    match policy with
    | RestartPolicy.Never => Decision.Stop
    | RestartPolicy.Always => Decision.Restart
    | RestartPolicy.IfCodeIn s => if exitCode ∈ s then Decision.Restart else Decision.Stop
    | RestartPolicy.IfCodeNotIn s => if exitCode ∈ s then Decision.Stop else Decision.Restart
    | RestartPolicy.Default => if exitCode ≠ 0 then Decision.Restart else Decision.Stop

/-! ## Character and decimal-number utilities

These model the Rust standard-library pieces used by src/cli.rs:
decimal rendering of a u64 (the format macro in LogRotation.to_cli) and
u64::from_str (used by LogRotation::from_str for the bytes=N form).
-/

/-- Numeric value of an ASCII digit character, none for any other character. -/
def digitVal (c : Char) : Option Nat :=
  if 48 ≤ c.toNat ∧ c.toNat ≤ 57 then some (c.toNat - 48) else none

/-- The ASCII digit character for a value below ten. -/
def decChar : Nat → Char
  | 0 => '0'
  | 1 => '1'
  | 2 => '2'
  | 3 => '3'
  | 4 => '4'
  | 5 => '5'
  | 6 => '6'
  | 7 => '7'
  | 8 => '8'
  | 9 => '9'
  | _ => '*'

/-- Decimal rendering of a natural number, most significant digit first;
models the Rust Display formatting of an unsigned integer. -/
def natDecimal (n : Nat) : List Char :=
  if _h : n < 10 then [decChar n]
  else natDecimal (n / 10) ++ [decChar (n % 10)]
termination_by n
decreasing_by omega

/-- Accumulating decimal parser: consumes digit characters, failing on any
non-digit. -/
def parseDigitsAux : List Char → Nat → Option Nat
  | [], acc => some acc
  | c :: rest, acc =>
    match digitVal c with
    | some d => parseDigitsAux rest (10 * acc + d)
    | none => none

/-- Drop one leading plus sign if present; models the sign handling of the
Rust unsigned-integer parser. -/
def stripPlus : List Char → List Char
  | [] => []
  | c :: rest => if c = '+' then rest else c :: rest

/-- Model of u64::from_str: an optional leading plus sign, then one or more
ASCII digits, with the value required to fit in 64 bits. -/
def parseU64 (l : List Char) : Option Nat :=
  match stripPlus l with
  | [] => none
  | c :: rest =>
    match parseDigitsAux (c :: rest) 0 with
    | some v => if v < 2 ^ 64 then some v else none
    | none => none

/-- Split a list at the first occurrence of the separator: models
splitn(2, sep) when the separator occurs; none models the one-part result. -/
def splitFirst (sep : Char) : List Char → Option (List Char × List Char)
  | [] => none
  | c :: rest =>
    if c = sep then some ([], rest)
    else
      match splitFirst sep rest with
      | some (a, b) => some (c :: a, b)
      | none => none

/-! ## CliError and parse_env_var (src/cli.rs lines 23 to 38 and 148 to 156) -/

/-- Errors of the cli module. -/
inductive CliError where
  | InvalidEnvVar : List Char → CliError
deriving DecidableEq

/-- Model of parse_env_var: split the input at the first equals sign into key
and value; with no equals sign, splitn yields a single part and the function
reports InvalidEnvVar. -/
def parse_env_var (value : List Char) : Except CliError (List Char × List Char) :=
  match splitFirst '=' value with
  | none => Except.error (CliError.InvalidEnvVar value)
  | some (k, v) => Except.ok (k, v)

/-! ## Priority (src/cli.rs lines 40 to 101) -/

/-- Process priority classes, as in src/cli.rs. -/
inductive Priority where
  | Realtime : Priority
  | High : Priority
  | AboveNormal : Priority
  | Normal : Priority
  | BelowNormal : Priority
  | Idle : Priority
deriving DecidableEq

/-- The table of accepted priority strings (the ALL constant). -/
def Priority.ALL : List (List Char) :=
  [("realtime").data, ("high").data, ("above-normal").data,
   ("normal").data, ("below-normal").data, ("idle").data]

/-- Model of Priority::to_cli. -/
def Priority.to_cli : Priority → List Char
  | Priority.Realtime => ("realtime").data
  | Priority.High => ("high").data
  | Priority.AboveNormal => ("above-normal").data
  | Priority.Normal => ("normal").data
  | Priority.BelowNormal => ("below-normal").data
  | Priority.Idle => ("idle").data

/-- Model of the FromStr implementation for Priority. -/
def Priority.from_str (s : List Char) : Except (List Char) Priority :=
  if s = ("realtime").data then Except.ok Priority.Realtime
  else if s = ("high").data then Except.ok Priority.High
  else if s = ("above-normal").data then Except.ok Priority.AboveNormal
  else if s = ("normal").data then Except.ok Priority.Normal
  else if s = ("below-normal").data then Except.ok Priority.BelowNormal
  else if s = ("idle").data then Except.ok Priority.Idle
  else Except.error (("invalid priority: ").data ++ s)

/-! ## LogRotation (src/cli.rs lines 103 to 146) -/

/-- Log rotation triggers, as in src/cli.rs; the byte threshold is a u64,
modelled as a Nat. -/
inductive LogRotation where
  | Bytes : Nat → LogRotation
  | Daily : LogRotation
  | Hourly : LogRotation
deriving DecidableEq

/-- Model of LogRotation::to_cli; the Bytes case uses decimal formatting. -/
def LogRotation.to_cli : LogRotation → List Char
  | LogRotation.Bytes bytes => ("bytes=").data ++ natDecimal bytes
  | LogRotation.Daily => ("daily").data
  | LogRotation.Hourly => ("hourly").data

/-- Model of the FromStr implementation for LogRotation: the two calendar
keywords, else the bytes= prefix with the remainder after the first equals
sign parsed as a u64, else an error. -/
def LogRotation.from_str (s : List Char) : Except (List Char) LogRotation :=
  if s = ("daily").data then Except.ok LogRotation.Daily
  else if s = ("hourly").data then Except.ok LogRotation.Hourly
  else if List.isPrefixOf (("bytes=").data) s then
    match splitFirst '=' s with
    | some (_, rest) =>
      match parseU64 rest with
      | some bytes => Except.ok (LogRotation.Bytes bytes)
      | none => Except.error (("Unable to parse log rotation as bytes").data)
    | none => Except.error (("Unable to parse log rotation").data)
  else Except.error (("Unable to parse log rotation").data)

/-- Model of the Default implementation for LogRotation. -/
def LogRotation.defaultValue : LogRotation := LogRotation.Bytes (1024 * 1024 * 2)

/-! ## CommonOpts and the argument resolver (src/cli.rs lines 158 to 323)

The clap derive attributes in src/cli.rs declare the flags, their conflicts
and the required command; clap itself resolves a raw command line against
those declarations.  The resolver below is modelled from the spec (the
external resolver rejects conflicting flags and missing required arguments
before the record is built); the conflict table and field structure are taken
directly from the source attributes.
-/

/-- Relevant clap error kinds (argument conflict, missing required argument,
value validation), as exercised by the tests in src/cli.rs. -/
inductive ClapError where
  | ArgumentConflict : ClapError
  | MissingRequiredArgument : ClapError
  | ValueValidation : ClapError
deriving DecidableEq

/-- The four restart-policy flags of CommonOpts. -/
inductive RestartFlag where
  | restart : RestartFlag
  | no_restart : RestartFlag
  | restart_if : RestartFlag
  | restart_if_not : RestartFlag
deriving DecidableEq, Fintype

/-- The conflicts-with declarations attached to each restart-policy flag in
src/cli.rs lines 170 to 212. -/
def conflicts_with : RestartFlag → List RestartFlag
  | RestartFlag.restart =>
    [RestartFlag.no_restart, RestartFlag.restart_if, RestartFlag.restart_if_not]
  | RestartFlag.no_restart =>
    [RestartFlag.restart, RestartFlag.restart_if, RestartFlag.restart_if_not]
  | RestartFlag.restart_if =>
    [RestartFlag.restart, RestartFlag.no_restart, RestartFlag.restart_if_not]
  | RestartFlag.restart_if_not =>
    [RestartFlag.restart, RestartFlag.no_restart, RestartFlag.restart_if]

/-- The CommonOpts record of src/cli.rs, with strings as character lists. -/
structure CommonOpts where
  pass : Option (List Int)
  restart : Bool
  no_restart : Bool
  restart_if : List Int
  restart_if_not : List Int
  stop_timeout : Option Nat
  no_log : Bool
  no_log_cmd : Bool
  log_dir : Option (List Char)
  log_as : Option (List Char)
  log_cmd_as : Option (List Char)
  log_rotate : Option LogRotation
  log_retain : Option Nat
  pass_start_args : Bool
  env : List (List Char × List Char)
  path : List (List Char)
  priority : Option Priority
  command : List (List Char)
deriving DecidableEq

/-- The Default derive for CommonOpts: every field takes its default value. -/
def CommonOpts.defaultValue : CommonOpts :=
  { pass := none, restart := false, no_restart := false, restart_if := [],
    restart_if_not := [], stop_timeout := none, no_log := false,
    no_log_cmd := false, log_dir := none, log_as := none, log_cmd_as := none,
    log_rotate := none, log_retain := none, pass_start_args := false,
    env := [], path := [], priority := none, command := [] }

/-- A raw command line for the common options, before clap resolution: flag
presence, unparsed env occurrences, and the command tokens after the double
dash.  An absent repeatable list option is none. -/
structure RawOpts where
  pass : Option (List Int)
  restart : Bool
  no_restart : Bool
  restart_if : Option (List Int)
  restart_if_not : Option (List Int)
  stop_timeout : Option Nat
  no_log : Bool
  no_log_cmd : Bool
  log_dir : Option (List Char)
  log_as : Option (List Char)
  log_cmd_as : Option (List Char)
  log_rotate : Option LogRotation
  log_retain : Option Nat
  pass_start_args : Bool
  env : List (List Char)
  path : List (List Char)
  priority : Option Priority
  command : List (List Char)
deriving DecidableEq

/-- The restart-policy flags present on a raw command line. -/
def presentRestartFlags (r : RawOpts) : List RestartFlag :=
  (if r.restart then [RestartFlag.restart] else []) ++
  (if r.no_restart then [RestartFlag.no_restart] else []) ++
  (if r.restart_if.isSome then [RestartFlag.restart_if] else []) ++
  (if r.restart_if_not.isSome then [RestartFlag.restart_if_not] else [])

/-- Whether some pair of supplied flags has a declared conflict. -/
def hasConflict (flags : List RestartFlag) : Bool :=
  flags.any (fun f => flags.any (fun g => g ∈ conflicts_with f))

/-- The CommonOpts record assembled from a raw command line whose env
occurrences parsed to envParsed; absent repeatable options become empty
vectors, as in the derived clap struct. -/
def cookOpts (r : RawOpts) (envParsed : List (List Char × List Char)) : CommonOpts :=
  { pass := r.pass, restart := r.restart, no_restart := r.no_restart,
    restart_if := r.restart_if.getD [],
    restart_if_not := r.restart_if_not.getD [],
    stop_timeout := r.stop_timeout, no_log := r.no_log,
    no_log_cmd := r.no_log_cmd, log_dir := r.log_dir,
    log_as := r.log_as, log_cmd_as := r.log_cmd_as,
    log_rotate := r.log_rotate, log_retain := r.log_retain,
    pass_start_args := r.pass_start_args, env := envParsed,
    path := r.path, priority := r.priority, command := r.command }

/-- Modelled from the spec: the external resolver (clap) builds CommonOpts
from a raw command line, validating option values as they are parsed, then
rejecting declared flag conflicts, then rejecting a missing required command;
the declarations themselves are those of src/cli.rs lines 158 to 274. -/
def buildCommonOpts (r : RawOpts) : Except ClapError CommonOpts :=
  match r.env.mapM parse_env_var with
  | Except.error _ => Except.error ClapError.ValueValidation
  | Except.ok envParsed =>
    if hasConflict (presentRestartFlags r) then Except.error ClapError.ArgumentConflict
    else if r.command = [] then Except.error ClapError.MissingRequiredArgument
    else Except.ok (cookOpts r envParsed)

/-- The two subcommands of src/cli.rs lines 276 to 311. -/
inductive Subcommand where
  | Add : CommonOpts → Option (List Char) → List (List Char) → List Char → Subcommand
  | Run : CommonOpts → Option (List Char) → List Char → Subcommand
deriving DecidableEq

/-- The command argv carried by a subcommand. -/
def Subcommand.commandOf : Subcommand → List (List Char)
  | Subcommand.Add common _ _ _ => common.command
  | Subcommand.Run common _ _ => common.command

/-- Modelled from the spec: resolving the add subcommand resolves the
flattened common options and attaches cwd, dependencies and name. -/
def buildAdd (r : RawOpts) (cwd : Option (List Char)) (dependencies : List (List Char))
    (name : List Char) : Except ClapError Subcommand :=
  (buildCommonOpts r).map (fun common => Subcommand.Add common cwd dependencies name)

/-- Modelled from the spec: resolving the run subcommand resolves the
flattened common options and attaches cwd and name. -/
def buildRun (r : RawOpts) (cwd : Option (List Char)) (name : List Char) :
    Except ClapError Subcommand :=
  (buildCommonOpts r).map (fun common => Subcommand.Run common cwd name)

/-- Modelled from the spec: the stop timeout used by the engine is the parsed
option when supplied, else the documented default of 3000 milliseconds (the
default noted on the stop_timeout field of src/cli.rs). -/
def resolve_stop_timeout (o : CommonOpts) : Nat :=
  o.stop_timeout.getD 3000

/-- A raw command line equivalent to two env occurrences sharing the key FOO
plus a command: env FOO=1, env FOO=2, then the command token foo. -/
def dupEnvRaw : RawOpts :=
  { pass := none, restart := false, no_restart := false, restart_if := none,
    restart_if_not := none, stop_timeout := none, no_log := false,
    no_log_cmd := false, log_dir := none, log_as := none, log_cmd_as := none,
    log_rotate := none, log_retain := none, pass_start_args := false,
    env := [("FOO=1").data, ("FOO=2").data], path := [], priority := none,
    command := [("foo").data] }

/-- The CommonOpts record that dupEnvRaw resolves to. -/
def dupEnvParsed : CommonOpts :=
  { pass := none, restart := false, no_restart := false, restart_if := [],
    restart_if_not := [], stop_timeout := none, no_log := false,
    no_log_cmd := false, log_dir := none, log_as := none, log_cmd_as := none,
    log_rotate := none, log_retain := none, pass_start_args := false,
    env := [(("FOO").data, ("1").data), (("FOO").data, ("2").data)],
    path := [], priority := none, command := [("foo").data] }

/-- A raw command line supplying both the restart and the no-restart flag. -/
def conflictRaw : RawOpts :=
  { dupEnvRaw with restart := true, no_restart := true, env := [] }

/-- A raw command line supplying no command tokens after the double dash. -/
def emptyCmdRaw : RawOpts :=
  { dupEnvRaw with env := [], command := [] }

/-! ## Theorems -/

/-- C1: for every exit code, every restart policy variant and every pass-code
set, membership of the exit code in the pass codes forces StopSuccess,
regardless of the policy variant. -/
theorem decide_pass_override (c : Int) (policy : RestartPolicy) (passCodes : List Int)
    (h : c ∈ passCodes) : decide c policy passCodes = Decision.StopSuccess := by
  simp [decide, h]

/-- Witness for decide_pass_override at exit code 5, policy Always, pass
codes containing 5. -/
theorem decide_pass_override_witness :
    (5 : Int) ∈ [(5 : Int)] ∧
      decide 5 RestartPolicy.Always [(5 : Int)] = Decision.StopSuccess :=
  ⟨by decide, decide_pass_override 5 RestartPolicy.Always [(5 : Int)] (by decide)⟩

/-- C2: under the Default policy with no pass codes, exit code zero stops and
every nonzero exit code restarts. -/
theorem decide_default_policy :
    decide 0 RestartPolicy.Default [] = Decision.Stop ∧
      ∀ c : Int, c ≠ 0 → decide c RestartPolicy.Default [] = Decision.Restart := by
  constructor
  · rfl
  · intro c hc
    simp [decide, hc]

/-- Witness for decide_default_policy at exit code 1. -/
theorem decide_default_policy_witness :
    (1 : Int) ≠ 0 ∧ decide 1 RestartPolicy.Default [] = Decision.Restart :=
  ⟨by decide, decide_default_policy.2 1 (by decide)⟩

/-- The conflict table of src/cli.rs is complete: every two distinct
restart-policy flags have a declared conflict. -/
theorem conflicts_with_complete : ∀ f g : RestartFlag, f ≠ g → g ∈ conflicts_with f := by
  decide

/-- When some env occurrence fails to parse, the resolver reports a value
validation error. -/
theorem buildCommonOpts_env_error (r : RawOpts) (e : CliError)
    (h : r.env.mapM parse_env_var = Except.error e) :
    buildCommonOpts r = Except.error ClapError.ValueValidation := by
  unfold buildCommonOpts
  rw [h]

/-- When every env occurrence parses, the resolver reduces to the conflict
and required-argument checks. -/
theorem buildCommonOpts_env_ok (r : RawOpts) (es : List (List Char × List Char))
    (h : r.env.mapM parse_env_var = Except.ok es) :
    buildCommonOpts r =
      (if hasConflict (presentRestartFlags r) then Except.error ClapError.ArgumentConflict
       else if r.command = [] then Except.error ClapError.MissingRequiredArgument
       else Except.ok (cookOpts r es)) := by
  unfold buildCommonOpts
  rw [h]

/-- Inversion for a successful resolution: the env occurrences parsed, no
conflict was present, the command is nonempty, and the record is the cooked
one. -/
theorem buildCommonOpts_ok_inv (r : RawOpts) (o : CommonOpts)
    (h : buildCommonOpts r = Except.ok o) :
    ∃ es, r.env.mapM parse_env_var = Except.ok es ∧
      hasConflict (presentRestartFlags r) = false ∧ r.command ≠ [] ∧ o = cookOpts r es := by
  cases henv : r.env.mapM parse_env_var with
  | error e =>
    rw [buildCommonOpts_env_error r e henv] at h
    exact absurd h (by simp)
  | ok es =>
    rw [buildCommonOpts_env_ok r es henv] at h
    split_ifs at h with h1 h2
    simp only [Except.ok.injEq] at h
    subst h
    exact ⟨es, rfl, by simpa using h1, h2, rfl⟩

/-- A resolved CommonOpts record carries a nonempty command. -/
theorem buildCommonOpts_ok_command (r : RawOpts) (o : CommonOpts)
    (h : buildCommonOpts r = Except.ok o) : o.command ≠ [] := by
  obtain ⟨es, _, _, hcmd, ho⟩ := buildCommonOpts_ok_inv r o h
  rw [ho]
  simpa [cookOpts] using hcmd

/-- C3: the four restart-policy flags are pairwise mutually exclusive: any
raw command line with otherwise valid values that supplies two distinct
restart flags resolves to an argument-conflict error, and a successfully
resolved record therefore has at most one restart flag active. -/
theorem restart_flags_mutually_exclusive :
    (∀ (r : RawOpts) (es : List (List Char × List Char)) (f g : RestartFlag),
        r.env.mapM parse_env_var = Except.ok es → f ≠ g →
        f ∈ presentRestartFlags r → g ∈ presentRestartFlags r →
        buildCommonOpts r = Except.error ClapError.ArgumentConflict) ∧
    (∀ (r : RawOpts) (o : CommonOpts),
        buildCommonOpts r = Except.ok o →
        ∀ f g : RestartFlag,
          f ∈ presentRestartFlags r → g ∈ presentRestartFlags r → f = g) := by
  have key : ∀ (r : RawOpts) (f g : RestartFlag), f ≠ g →
      f ∈ presentRestartFlags r → g ∈ presentRestartFlags r →
      hasConflict (presentRestartFlags r) = true := by
    intro r f g hne hf hg
    simp only [hasConflict, List.any_eq_true, decide_eq_true_eq]
    exact ⟨f, hf, g, hg, conflicts_with_complete f g hne⟩
  constructor
  · intro r es f g henv hne hf hg
    rw [buildCommonOpts_env_ok r es henv, if_pos (key r f g hne hf hg)]
  · intro r o hok f g hf hg
    by_contra hne
    obtain ⟨es, henv, hcf, hcmd, ho⟩ := buildCommonOpts_ok_inv r o hok
    rw [key r f g hne hf hg] at hcf
    exact Bool.noConfusion hcf

/-- Witness for restart_flags_mutually_exclusive on a raw command line with
both restart and no-restart. -/
theorem restart_flags_mutually_exclusive_witness :
    conflictRaw.env.mapM parse_env_var = Except.ok [] ∧
    RestartFlag.restart ≠ RestartFlag.no_restart ∧
    RestartFlag.restart ∈ presentRestartFlags conflictRaw ∧
    RestartFlag.no_restart ∈ presentRestartFlags conflictRaw ∧
    buildCommonOpts conflictRaw = Except.error ClapError.ArgumentConflict :=
  ⟨rfl, by decide, by decide, by decide,
    restart_flags_mutually_exclusive.1 conflictRaw [] RestartFlag.restart
      RestartFlag.no_restart rfl (by decide) (by decide) (by decide)⟩

/-- C4: every successfully resolved run or add subcommand carries a nonempty
command argv, and with otherwise valid arguments an empty command is rejected
with a missing-required-argument error on both subcommands. -/
theorem parsed_command_nonempty :
    (∀ (r : RawOpts) (cwd : Option (List Char)) (name : List Char) (sc : Subcommand),
        buildRun r cwd name = Except.ok sc → sc.commandOf ≠ []) ∧
    (∀ (r : RawOpts) (cwd : Option (List Char)) (dependencies : List (List Char))
        (name : List Char) (sc : Subcommand),
        buildAdd r cwd dependencies name = Except.ok sc → sc.commandOf ≠ []) ∧
    (∀ (r : RawOpts) (es : List (List Char × List Char)) (cwd : Option (List Char))
        (name : List Char),
        r.env.mapM parse_env_var = Except.ok es →
        hasConflict (presentRestartFlags r) = false →
        r.command = [] →
        buildRun r cwd name = Except.error ClapError.MissingRequiredArgument) ∧
    (∀ (r : RawOpts) (es : List (List Char × List Char)) (cwd : Option (List Char))
        (dependencies : List (List Char)) (name : List Char),
        r.env.mapM parse_env_var = Except.ok es →
        hasConflict (presentRestartFlags r) = false →
        r.command = [] →
        buildAdd r cwd dependencies name = Except.error ClapError.MissingRequiredArgument) := by
  refine ⟨?_, ?_, ?_, ?_⟩
  · intro r cwd name sc h
    cases hb : buildCommonOpts r with
    | error e => simp [buildRun, hb, Except.map] at h
    | ok o =>
      simp only [buildRun, hb, Except.map, Except.ok.injEq] at h
      rw [← h]
      simpa [Subcommand.commandOf] using buildCommonOpts_ok_command r o hb
  · intro r cwd dependencies name sc h
    cases hb : buildCommonOpts r with
    | error e => simp [buildAdd, hb, Except.map] at h
    | ok o =>
      simp only [buildAdd, hb, Except.map, Except.ok.injEq] at h
      rw [← h]
      simpa [Subcommand.commandOf] using buildCommonOpts_ok_command r o hb
  · intro r es cwd name henv hconf hcmd
    simp [buildRun, buildCommonOpts_env_ok r es henv, hconf, hcmd, Except.map]
  · intro r es cwd dependencies name henv hconf hcmd
    simp [buildAdd, buildCommonOpts_env_ok r es henv, hconf, hcmd, Except.map]

/-- Witness for parsed_command_nonempty on a raw command line with no
command tokens. -/
theorem parsed_command_nonempty_witness :
    emptyCmdRaw.command = [] ∧
    buildRun emptyCmdRaw none (("Shawl").data) =
      Except.error ClapError.MissingRequiredArgument :=
  ⟨rfl, parsed_command_nonempty.2.2.1 emptyCmdRaw [] none (("Shawl").data)
    rfl (by decide) rfl⟩

/-- C5 counterexample: a raw command line with two env occurrences sharing
the key FOO resolves successfully, and the resolved env sequence has two
entries with the same key, so keys are not unique. -/
theorem env_keys_duplicate_counterexample :
    buildCommonOpts dupEnvRaw = Except.ok dupEnvParsed ∧
    dupEnvParsed.env.map Prod.fst = [("FOO").data, ("FOO").data] ∧
    ¬ List.Nodup (dupEnvParsed.env.map Prod.fst) :=
  ⟨rfl, rfl, by decide⟩

/-- C5 amended: the resolved env sequence is exactly the per-occurrence
result of parse_env_var, in order, with duplicate keys retained. -/
theorem env_entries_preserved (r : RawOpts) (o : CommonOpts)
    (h : buildCommonOpts r = Except.ok o) :
    r.env.mapM parse_env_var = Except.ok o.env := by
  obtain ⟨es, henv, _, _, ho⟩ := buildCommonOpts_ok_inv r o h
  rw [ho, henv]
  exact rfl

/-- Witness for env_entries_preserved on the duplicate-key command line. -/
theorem env_entries_preserved_witness :
    buildCommonOpts dupEnvRaw = Except.ok dupEnvParsed ∧
    dupEnvRaw.env.mapM parse_env_var = Except.ok dupEnvParsed.env :=
  ⟨rfl, env_entries_preserved dupEnvRaw dupEnvParsed rfl⟩

/-- Two character lists with different heads are different. -/
theorem cons_ne {a b : Char} {l l2 : List Char} (h : a ≠ b) : a :: l ≠ b :: l2 := by
  intro he
  injection he with h1 _
  exact h h1

/-- The digit character of a value below ten parses back to that value. -/
theorem digitVal_decChar (d : Nat) (h : d < 10) : digitVal (decChar d) = some d := by
  interval_cases d <;> rfl

/-- The digit character of a value below ten is not the plus sign. -/
theorem decChar_ne_plus (d : Nat) (h : d < 10) : decChar d ≠ '+' := by
  interval_cases d <;> decide

/-- The accumulating parser splits over list append. -/
theorem parseDigitsAux_append (xs ys : List Char) :
    ∀ acc, parseDigitsAux (xs ++ ys) acc =
      match parseDigitsAux xs acc with
      | some a => parseDigitsAux ys a
      | none => none := by
  induction xs with
  | nil => intro acc; rfl
  | cons c rest ih =>
    intro acc
    show parseDigitsAux (c :: (rest ++ ys)) acc = _
    cases hdv : digitVal c with
    | some d =>
      simp only [parseDigitsAux, hdv]
      exact ih _
    | none => simp only [parseDigitsAux, hdv]

/-- Parsing the decimal rendering of n from any accumulator yields the
accumulator shifted by the digit count plus n. -/
theorem natDecimal_parse (n : Nat) :
    ∀ acc, ∃ k, parseDigitsAux (natDecimal n) acc = some (acc * 10 ^ k + n) := by
  induction n using Nat.strong_induction_on with
  | _ n ih =>
    intro acc
    by_cases h : n < 10
    · refine ⟨1, ?_⟩
      rw [natDecimal, dif_pos h]
      simp only [parseDigitsAux, digitVal_decChar n h]
      congr 1
      ring
    · rw [natDecimal, dif_neg h]
      rw [parseDigitsAux_append]
      obtain ⟨k, hk⟩ := ih (n / 10) (by omega) acc
      rw [hk]
      simp only [parseDigitsAux, digitVal_decChar (n % 10) (by omega)]
      refine ⟨k + 1, ?_⟩
      congr 1
      have hm : 10 * (n / 10) + n % 10 = n := Nat.div_add_mod n 10
      have : 10 * (acc * 10 ^ k + n / 10) + n % 10 =
          acc * (10 ^ k * 10) + (10 * (n / 10) + n % 10) := by ring
      rw [this, hm, ← pow_succ]

/-- The decimal rendering starts with a digit character. -/
theorem natDecimal_head (n : Nat) :
    ∃ d t, natDecimal n = decChar d :: t ∧ d < 10 := by
  induction n using Nat.strong_induction_on with
  | _ n ih =>
    by_cases h : n < 10
    · exact ⟨n, [], by rw [natDecimal, dif_pos h], h⟩
    · obtain ⟨d, t, hdt, hd⟩ := ih (n / 10) (by omega)
      refine ⟨d, t ++ [decChar (n % 10)], ?_, hd⟩
      rw [natDecimal, dif_neg h, hdt]
      rfl

/-- The decimal rendering of a value that fits in 64 bits parses back to that
value under the u64 parser. -/
theorem parseU64_natDecimal (n : Nat) (h : n < 2 ^ 64) :
    parseU64 (natDecimal n) = some n := by
  obtain ⟨d, t, hdt, hd⟩ := natDecimal_head n
  obtain ⟨k, hk⟩ := natDecimal_parse n 0
  rw [hdt] at hk
  simp only [zero_mul, zero_add] at hk
  have hs : stripPlus (decChar d :: t) = decChar d :: t := by
    rw [stripPlus, if_neg (decChar_ne_plus d hd)]
  rw [hdt]
  simp only [parseU64, hs, hk]
  rw [if_pos h]

/-- Any character list is a Boolean prefix of itself followed by anything. -/
theorem isPrefixOf_append (l r : List Char) : List.isPrefixOf l (l ++ r) = true := by
  induction l with
  | nil => simp
  | cons c rest ih => simp [List.isPrefixOf_cons₂, ih]

/-- Reduction of LogRotation.from_str on an input starting with bytes= :
the remainder after the equals sign is handed to the u64 parser. -/
theorem from_str_bytes (rest : List Char) :
    LogRotation.from_str (("bytes=").data ++ rest) =
      match parseU64 rest with
      | some n => Except.ok (LogRotation.Bytes n)
      | none => Except.error (("Unable to parse log rotation as bytes").data) := by
  have h1 : (("bytes=").data ++ rest) ≠ ("daily").data := cons_ne (by decide)
  have h2 : (("bytes=").data ++ rest) ≠ ("hourly").data := cons_ne (by decide)
  have h3 : List.isPrefixOf (("bytes=").data) (("bytes=").data ++ rest) = true :=
    isPrefixOf_append (("bytes=").data) rest
  have h4 : splitFirst '=' (("bytes=").data ++ rest) = some ((("bytes").data), rest) := rfl
  unfold LogRotation.from_str
  rw [if_neg h1, if_neg h2, if_pos h3, h4]

/-- C6: the log-rotation parser accepts exactly daily, hourly and bytes=n
with n a valid u64, errors on every other input, and the unconfigured
default trigger is 2097152 bytes. -/
theorem log_rotation_from_str_spec :
    LogRotation.from_str (("daily").data) = Except.ok LogRotation.Daily ∧
    LogRotation.from_str (("hourly").data) = Except.ok LogRotation.Hourly ∧
    (∀ (rest : List Char) (n : Nat), parseU64 rest = some n →
      LogRotation.from_str (("bytes=").data ++ rest) = Except.ok (LogRotation.Bytes n)) ∧
    (∀ rest : List Char, parseU64 rest = none →
      LogRotation.from_str (("bytes=").data ++ rest) =
        Except.error (("Unable to parse log rotation as bytes").data)) ∧
    (∀ s : List Char, s ≠ ("daily").data → s ≠ ("hourly").data →
      List.isPrefixOf (("bytes=").data) s = false →
      LogRotation.from_str s = Except.error (("Unable to parse log rotation").data)) ∧
    LogRotation.defaultValue = LogRotation.Bytes 2097152 := by
  refine ⟨rfl, rfl, ?_, ?_, ?_, by decide⟩
  · intro rest n h
    rw [from_str_bytes, h]
  · intro rest h
    rw [from_str_bytes, h]
  · intro s hd hh hb
    unfold LogRotation.from_str
    rw [if_neg hd, if_neg hh, if_neg (by simp [hb])]

/-- Witness for log_rotation_from_str_spec on the input bytes=5. -/
theorem log_rotation_from_str_spec_witness :
    parseU64 (("5").data) = some 5 ∧
    LogRotation.from_str (("bytes=").data ++ ("5").data) =
      Except.ok (LogRotation.Bytes 5) :=
  ⟨rfl, log_rotation_from_str_spec.2.2.1 (("5").data) 5 rfl⟩

/-- C7: the stop timeout is a non-negative number of milliseconds and
defaults to 3000 when the option is not supplied. -/
theorem stop_timeout_default_spec :
    (∀ o : CommonOpts, o.stop_timeout = none → resolve_stop_timeout o = 3000) ∧
    (∀ o : CommonOpts, 0 ≤ resolve_stop_timeout o) := by
  constructor
  · intro o h
    simp [resolve_stop_timeout, h]
  · intro o
    exact Nat.zero_le _

/-- Witness for stop_timeout_default_spec on the default record. -/
theorem stop_timeout_default_spec_witness :
    CommonOpts.defaultValue.stop_timeout = none ∧
    resolve_stop_timeout CommonOpts.defaultValue = 3000 :=
  ⟨rfl, stop_timeout_default_spec.1 CommonOpts.defaultValue rfl⟩

/-- C8: the priority parser inverts to_cli on every variant, accepts every
entry of the ALL table, and errors on every string outside the table. -/
theorem priority_from_str_exact :
    (∀ p : Priority, Priority.from_str p.to_cli = Except.ok p) ∧
    (∀ s : List Char, s ∈ Priority.ALL → ∃ p : Priority,
      Priority.from_str s = Except.ok p) ∧
    (∀ s : List Char, s ∉ Priority.ALL →
      Priority.from_str s = Except.error ((("invalid priority: ").data) ++ s)) := by
  refine ⟨?_, ?_, ?_⟩
  · intro p
    cases p <;> rfl
  · intro s hs
    fin_cases hs <;> exact ⟨_, rfl⟩
  · intro s hs
    unfold Priority.from_str
    split_ifs with h1 h2 h3 h4 h5 h6
    · exact absurd (by rw [h1]; decide) hs
    · exact absurd (by rw [h2]; decide) hs
    · exact absurd (by rw [h3]; decide) hs
    · exact absurd (by rw [h4]; decide) hs
    · exact absurd (by rw [h5]; decide) hs
    · exact absurd (by rw [h6]; decide) hs
    · rfl

/-- Witness for priority_from_str_exact on an accepted and a rejected
string. -/
theorem priority_from_str_exact_witness :
    (("high").data ∈ Priority.ALL) ∧
    (∃ p : Priority, Priority.from_str (("high").data) = Except.ok p) ∧
    (("bogus").data ∉ Priority.ALL) ∧
    Priority.from_str (("bogus").data) =
      Except.error ((("invalid priority: ").data) ++ ("bogus").data) :=
  ⟨by decide, priority_from_str_exact.2.1 _ (by decide), by decide,
    priority_from_str_exact.2.2 _ (by decide)⟩

/-- C9: from_str inverts to_cli on every LogRotation value, including
Bytes n for every n that fits in a u64. -/
theorem log_rotation_roundtrip :
    (∀ n : Nat, n < 2 ^ 64 →
      LogRotation.from_str (LogRotation.Bytes n).to_cli =
        Except.ok (LogRotation.Bytes n)) ∧
    LogRotation.from_str LogRotation.Daily.to_cli = Except.ok LogRotation.Daily ∧
    LogRotation.from_str LogRotation.Hourly.to_cli = Except.ok LogRotation.Hourly := by
  refine ⟨?_, rfl, rfl⟩
  intro n hn
  show LogRotation.from_str (("bytes=").data ++ natDecimal n) = _
  rw [from_str_bytes, parseU64_natDecimal n hn]

/-- Witness for log_rotation_roundtrip at 123 bytes. -/
theorem log_rotation_roundtrip_witness :
    123 < 2 ^ 64 ∧
    LogRotation.from_str (LogRotation.Bytes 123).to_cli =
      Except.ok (LogRotation.Bytes 123) :=
  ⟨by decide, log_rotation_roundtrip.1 123 (by decide)⟩

/-- A list without the separator does not split. -/
theorem splitFirst_of_not_mem (sep : Char) (l : List Char) (h : sep ∉ l) :
    splitFirst sep l = none := by
  induction l with
  | nil => rfl
  | cons c rest ih =>
    have hc : ¬c = sep := fun hc => h (hc ▸ List.mem_cons_self c rest)
    have hrest : sep ∉ rest := fun hr => h (List.mem_cons_of_mem c hr)
    rw [splitFirst, if_neg hc, ih hrest]

/-- A list that does not split does not contain the separator. -/
theorem not_mem_of_splitFirst_none (sep : Char) (l : List Char)
    (h : splitFirst sep l = none) : sep ∉ l := by
  induction l with
  | nil => simp
  | cons c rest ih =>
    rw [splitFirst] at h
    by_cases hc : c = sep
    · rw [if_pos hc] at h
      exact absurd h (by simp)
    · rw [if_neg hc] at h
      cases hs : splitFirst sep rest with
      | some p =>
        rw [hs] at h
        exact absurd h (by simp)
      | none =>
        intro hmem
        rcases List.mem_cons.mp hmem with h1 | h2
        · exact hc h1.symm
        · exact ih hs h2

/-- Splitting at the first separator occurrence: a separator-free prefix is
returned whole, together with the entire remainder. -/
theorem splitFirst_append (sep : Char) (k v : List Char) (h : sep ∉ k) :
    splitFirst sep (k ++ sep :: v) = some (k, v) := by
  induction k with
  | nil =>
    show splitFirst sep (sep :: v) = _
    rw [splitFirst, if_pos rfl]
  | cons c rest ih =>
    have hc : ¬c = sep := fun hc => h (hc ▸ List.mem_cons_self c rest)
    have hrest : sep ∉ rest := fun hr => h (List.mem_cons_of_mem c hr)
    show splitFirst sep (c :: (rest ++ sep :: v)) = _
    rw [splitFirst, if_neg hc, ih hrest]

/-- C10: parse_env_var reports InvalidEnvVar exactly on inputs without an
equals sign, and on any other input returns the prefix before the first
equals sign as the key and the whole remainder as the value. -/
theorem parse_env_var_spec :
    (∀ v : List Char,
      parse_env_var v = Except.error (CliError.InvalidEnvVar v) ↔ '=' ∉ v) ∧
    (∀ k val : List Char, '=' ∉ k →
      parse_env_var (k ++ '=' :: val) = Except.ok (k, val)) := by
  constructor
  · intro v
    constructor
    · intro h hmem
      unfold parse_env_var at h
      cases hs : splitFirst '=' v with
      | none => exact not_mem_of_splitFirst_none _ v hs hmem
      | some p =>
        rw [hs] at h
        exact absurd h (by simp)
    · intro h
      unfold parse_env_var
      rw [splitFirst_of_not_mem _ v h]
  · intro k val h
    unfold parse_env_var
    rw [splitFirst_append _ k val h]

/-- Witness for parse_env_var_spec: the key FOO with a value containing a
further equals sign. -/
theorem parse_env_var_spec_witness :
    ('=' ∉ ("FOO").data) ∧
    parse_env_var (("FOO").data ++ '=' :: ("bar=baz").data) =
      Except.ok ((("FOO").data), ("bar=baz").data) :=
  ⟨by decide, parse_env_var_spec.2 (("FOO").data) (("bar=baz").data) (by decide)⟩

end Shawl
